import Mathlib

/-!
Shallow embedding of the `trylatex` crate (`src/lib.rs`): a composable
LaTeX-like document builder.  Rust structs become Lean structures, the
`Element` trait objects stored in `Area` become a closed inductive
`Element`, `Vec` becomes `List`, and `String` stays `String` (the Rust
code only ever concatenates strings).  Every `render` is translated
clause by clause from the source.
-/

namespace TryLatex

mutual

/-- `Macros` from the source: a named command with an ordered parameter
list (`m: String`, `params: Vec<Parameter>`). -/
inductive Macros : Type where
  | mk : String → List Parameter → Macros

/-- `Parameter` from the source: either literal text or a nested command. -/
inductive Parameter : Type where
  | Literal : String → Parameter
  | Macros : Macros → Parameter

end

/-- `Macros::new`: named command with an empty parameter list. -/
def Macros.new (m : String) : Macros := .mk m []

/-- `Macros::param`: push one parameter at the end of the list. -/
def Macros.param : Macros → Parameter → Macros
  | .mk m ps, p => .mk m (ps ++ [p])

/-- Name component of a `Macros`. -/
def Macros.m : Macros → String
  | .mk m _ => m

/-- Parameter list of a `Macros`. -/
def Macros.params : Macros → List Parameter
  | .mk _ ps => ps

mutual

/-- `impl Element for Macros`: render each parameter, collect into one
string; braces appear exactly when that collected string is nonempty. -/
def Macros.render : Macros → String
  | .mk m ps =>
    let params := Parameter.renderList ps
    if params ≠ "" then "\\" ++ m ++ "\x7b" ++ params ++ "\x7d"
    else "\\" ++ m

/-- `impl Element for Parameter`: literal text verbatim, nested command
via its own render. -/
def Parameter.render : Parameter → String
  | .Literal l => l
  | .Macros m => Macros.render m

/-- `iter().map(|p| p.render()).collect::<String>()`: concatenation of
the parameter renders, in order, no delimiter. -/
def Parameter.renderList : List Parameter → String
  | [] => ""
  | p :: ps => Parameter.render p ++ Parameter.renderList ps

end

/-- `DocumentType` from the source: closed set, only `Article`. -/
inductive DocumentType : Type where
  | Article : DocumentType

/-- `impl Display for DocumentType`. -/
def DocumentType.display : DocumentType → String
  | .Article => "article"

/-- `Preambule` from the source (field names kept, `r#type` as `type`). -/
structure Preambule : Type where
  type : DocumentType
  author : Option Parameter
  tittle : Option Parameter

/-- `Preambule::new`: default type `Article`, no author, no title. -/
def Preambule.new : Preambule := ⟨.Article, none, none⟩

/-- `Preambule::r#type`: replace the document type. -/
def Preambule.setType (s : Preambule) (t : DocumentType) : Preambule :=
  { s with type := t }

/-- `Preambule::tittle`: store `Macros::new("title").param(p)` as the
title parameter, replacing any previous value. -/
def Preambule.setTittle (s : Preambule) (p : Parameter) : Preambule :=
  { s with tittle := some (.Macros ((Macros.new "title").param p)) }

/-- `Preambule::author`: store `Macros::new("author").param(a)` as the
author parameter, replacing any previous value. -/
def Preambule.setAuthor (s : Preambule) (a : String) : Preambule :=
  { s with author := some (.Macros ((Macros.new "author").param (.Literal a))) }

/-- `impl Element for Preambule`: push the `\documentclass` line, then
the title line if set, then the author line if set; join with `"\n"`. -/
def Preambule.render (s : Preambule) : String :=
  let buf := ["\\documentclass\x7b" ++ s.type.display ++ "\x7d"]
  let buf := match s.tittle with
    | some t => buf ++ [t.render]
    | none => buf
  let buf := match s.author with
    | some a => buf ++ [a.render]
    | none => buf
  String.intercalate "\n" buf

/-- The `Element` trait objects that can live inside an `Area`
(`Box<dyn Element>`): every concrete implementor of the trait. -/
inductive Element : Type where
  | text : String → Element
  | macros : Macros → Element
  | param : Parameter → Element
  | area : List Element → Element
  | boxed : List Element → List Element → List Element → Element
  | preambule : Preambule → Element
  | document : Preambule → List Element → List Element → List Element → Element

mutual

/-- `render` of a boxed trait object: dispatch to the concrete
implementation (each arm is the corresponding `impl Element for _`). -/
def Element.render : Element → String
  | .text s => s
  | .macros m => m.render
  | .param p => p.render
  | .area objs => Element.renderList objs
  | .boxed prep middle after =>
    Element.renderList prep ++ "\n" ++ Element.renderList middle ++ "\n"
      ++ Element.renderList after
  | .preambule s => s.render
  | .document s prep middle after =>
    s.render ++ "\n\n"
      ++ (Element.renderList prep ++ "\n" ++ Element.renderList middle ++ "\n"
          ++ Element.renderList after)
      ++ "\n"

/-- `iter().map(|obj| obj.render()).collect::<String>()`: concatenation
in insertion order, no delimiter. -/
def Element.renderList : List Element → String
  | [] => ""
  | e :: es => Element.render e ++ Element.renderList es

end

/-- `Area` from the source: ordered sequence of owned trait objects. -/
structure Area : Type where
  objs : List Element

/-- `Area::new`: empty sequence. -/
def Area.new : Area := ⟨[]⟩

/-- `impl Container for Area`: push the element at the end. -/
def Area.insert (a : Area) (e : Element) : Area := ⟨a.objs ++ [e]⟩

/-- `impl Element for Area`: concatenation of children renders. -/
def Area.render (a : Area) : String := Element.renderList a.objs

/-- `Boxed` from the source: three fixed regions. -/
structure Boxed : Type where
  prep : Area
  middle : Area
  after : Area

/-- `Boxed::new`: three empty areas. -/
def Boxed.new : Boxed := ⟨Area.new, Area.new, Area.new⟩

/-- `impl Container for Boxed`: the body is literally `self` — the
element is dropped and the receiver returned unchanged. -/
def Boxed.insert (b : Boxed) (_e : Element) : Boxed := b

/-- `impl Element for Boxed`: one newline between consecutive regions. -/
def Boxed.render (b : Boxed) : String :=
  b.prep.render ++ "\n" ++ b.middle.render ++ "\n" ++ b.after.render

/-- `Document` from the source. -/
structure Document : Type where
  preambule : Preambule
  body : Boxed

/-- `Document::new`: seed `prep` with `\begin{document}` and `after`
with `\end{document}`; `middle` empty, preamble at defaults. -/
def Document.new : Document :=
  let body := Boxed.new
  let body := { body with
    prep := body.prep.insert (.macros ((Macros.new "begin").param (.Literal "document"))) }
  let body := { body with
    after := body.after.insert (.macros ((Macros.new "end").param (.Literal "document"))) }
  ⟨Preambule.new, body⟩

/-- `impl Container for Document`: forward the element into the body's
`middle` area. -/
def Document.insert (d : Document) (e : Element) : Document :=
  { d with body := { d.body with middle := d.body.middle.insert e } }

/-- `impl Element for Document`: preamble, blank line, body, newline. -/
def Document.render (d : Document) : String :=
  d.preambule.render ++ "\n\n" ++ d.body.render ++ "\n"

/-- `fn LaTeX()`: the zero-parameter command named `LaTeX`. -/
def LaTeX : Macros := Macros.new "LaTeX"

/-- Append a whole list of elements to an `Area`, one `insert` at a time
in list order (a chain of `with` calls in the source). -/
def Area.insertAll (a : Area) (es : List Element) : Area :=
  es.foldl Area.insert a

/-- Append a whole list of elements to a `Document`, one `insert` at a
time in list order (a chain of `with` calls in the source). -/
def Document.insertAll (d : Document) (es : List Element) : Document :=
  es.foldl Document.insert d

/-- Scenario A of the spec, exactly as the crate's own test builds it:
default document type, title `\LaTeX`, author `"Maxim Zhiburt"`, body
text `"something"`. -/
def scenarioA : Document :=
  let d := Document.new
  let d := { d with
    preambule := (d.preambule.setTittle (.Macros LaTeX)).setAuthor "Maxim Zhiburt" }
  d.insert (.text "something")

/-- The reachable `Preambule` states: an arbitrary type, an optionally
set title parameter, an optionally set author string, applied through
the source's three setters. -/
def Preambule.build (t : DocumentType) (tp : Option Parameter)
    (au : Option String) : Preambule :=
  let s := Preambule.new.setType t
  let s := match tp with
    | some p => s.setTittle p
    | none => s
  match au with
  | some a => s.setAuthor a
  | none => s

theorem Parameter.renderList_as_foldr (ps : List Parameter) :
    Parameter.renderList ps = (ps.map Parameter.render).foldr (· ++ ·) "" := by
  induction ps with
  | nil => rfl
  | cons p ps ih => simp [Parameter.renderList, ih]

theorem Parameter.renderList_eq_empty (ps : List Parameter)
    (h : ∀ p ∈ ps, p.render = "") : Parameter.renderList ps = "" := by
  induction ps with
  | nil => rfl
  | cons p ps ih =>
    have hp : Parameter.render p = "" := h p (List.mem_cons_self p ps)
    have hps : Parameter.renderList ps = "" := ih fun q hq => h q (List.mem_cons_of_mem p hq)
    simp [Parameter.renderList, hp, hps]

theorem Element.renderList_append (xs ys : List Element) :
    Element.renderList (xs ++ ys) = Element.renderList xs ++ Element.renderList ys := by
  induction xs with
  | nil => simp [Element.renderList]
  | cons x xs ih => simp [Element.renderList, ih, String.append_assoc]

theorem Element.renderList_eq_foldr (es : List Element) :
    Element.renderList es = (es.map Element.render).foldr (· ++ ·) "" := by
  induction es with
  | nil => rfl
  | cons e es ih => simp [Element.renderList, ih]

theorem Area.insertAll_objs (a : Area) (es : List Element) :
    (a.insertAll es).objs = a.objs ++ es := by
  induction es generalizing a with
  | nil => simp [Area.insertAll]
  | cons e es ih =>
    simp [Area.insertAll] at ih ⊢
    rw [ih (a.insert e)]
    simp [Area.insert]

theorem Document.insertAll_middle (d : Document) (es : List Element) :
    (d.insertAll es).body.middle = d.body.middle.insertAll es := by
  induction es generalizing d with
  | nil => rfl
  | cons e es ih =>
    simp [Document.insertAll, Area.insertAll] at ih ⊢
    rw [ih (d.insert e)]
    rfl

/-- Claim C1: the Document built as in Scenario A — default type, title
set to the zero-parameter command `LaTeX`, author `"Maxim Zhiburt"`,
body text `"something"` — renders to exactly the expected string, with
exactly one trailing newline. -/
theorem scenarioA_render_exact :
    scenarioA.render =
      "\\documentclass\x7barticle\x7d\n\\title\x7b\\LaTeX\x7d\n\\author\x7bMaxim Zhiburt\x7d\n\n\\begin\x7bdocument\x7d\nsomething\n\\end\x7bdocument\x7d\n" := by
  rfl

/-- Claim C2 (counterexample): a command with one parameter — so a
non-empty parameter list — whose parameter renders to the empty string
does not render with a brace pair, contrary to the claim; it renders as
`\x` with no braces. -/
theorem macros_braces_claim_cex :
    ((Macros.new "x").param (.Literal "")).render ≠ "\\x\x7b\x7d" ∧
    ((Macros.new "x").param (.Literal "")).render = "\\x" := by
  exact ⟨by decide, rfl⟩

/-- Claim C2 (amended): a Command renders as `\` + name with no braces
when the concatenation of its parameters' renders is empty (in
particular when the parameter list is empty), and as `\` + name + one
brace pair around that concatenation — in order, no delimiter —
otherwise. -/
theorem macros_render_braces (m : String) (ps : List Parameter) :
    (Macros.mk m ps).render =
      if (ps.map Parameter.render).foldr (· ++ ·) "" = "" then "\\" ++ m
      else "\\" ++ m ++ "\x7b" ++ (ps.map Parameter.render).foldr (· ++ ·) "" ++ "\x7d" := by
  rw [← Parameter.renderList_as_foldr]
  by_cases h : Parameter.renderList ps = "" <;> simp [Macros.render, h]

/-- Claim C3: `Boxed`'s Container operation is a no-op pass-through —
the result renders identically and all three regions are unchanged. -/
theorem boxed_insert_noop (b : Boxed) (e : Element) :
    (b.insert e).render = b.render ∧ (b.insert e).prep = b.prep ∧
    (b.insert e).middle = b.middle ∧ (b.insert e).after = b.after :=
  ⟨rfl, rfl, rfl, rfl⟩

/-- Claim C4: appending any finite sequence of elements to an empty
Area — directly, or via the Document Container forwarding into the
body's middle Area — renders as the concatenation of each element's
independent render, in append order, with no delimiter. -/
theorem area_render_concat (es : List Element) :
    (Area.new.insertAll es).render = (es.map Element.render).foldr (· ++ ·) "" ∧
    ((Document.new.insertAll es).body.middle.render =
      (es.map Element.render).foldr (· ++ ·) "") := by
  have harea : ∀ fs : List Element,
      (Area.new.insertAll fs).render = (fs.map Element.render).foldr (· ++ ·) "" := by
    intro fs
    rw [Area.render, Area.insertAll_objs, ← Element.renderList_eq_foldr]
    rfl
  refine ⟨harea es, ?_⟩
  rw [Document.insertAll_middle]
  exact harea es

/-- Claim C5: a fresh Document with nothing set renders to exactly
`\documentclass{article}\n\n\begin{document}\n\n\end{document}\n` —
two newlines between preamble and body, the body's empty middle region
still bracketed by its two region-separator newlines, one trailing
newline. -/
theorem empty_document_render_exact :
    Document.new.render =
      "\\documentclass\x7barticle\x7d\n\n\\begin\x7bdocument\x7d\n\n\\end\x7bdocument\x7d\n" := by
  rfl

/-- Claim C6: every reachable Preambule state renders as lines joined
by a single newline, no trailing newline: the `\documentclass` line
first, then — only if the title was set — the render of a Command named
`title` wrapping the given Parameter, then — only if the author was set
— the analogous `author` line. -/
theorem preambule_render_lines (t : DocumentType) (tp : Option Parameter)
    (au : Option String) :
    (Preambule.build t tp au).render =
      String.intercalate "\n"
        (["\\documentclass\x7b" ++ t.display ++ "\x7d"]
          ++ (tp.map fun p => ((Macros.new "title").param p).render).toList
          ++ (au.map fun a => ((Macros.new "author").param (.Literal a)).render).toList) := by
  cases tp <;> cases au <;> rfl

/-- Claim C7: Document's Container operation appends the element at the
end of the body's middle Area and changes nothing else — the preamble
and the body's prep and after regions render identically, and the
middle region's render gains exactly the element's render at the end. -/
theorem document_insert_appends_middle_only (d : Document) (e : Element) :
    (d.insert e).preambule.render = d.preambule.render ∧
    (d.insert e).body.prep.render = d.body.prep.render ∧
    (d.insert e).body.after.render = d.body.after.render ∧
    (d.insert e).body.middle.render = d.body.middle.render ++ e.render := by
  refine ⟨rfl, rfl, rfl, ?_⟩
  show (d.body.middle.insert e).render = _
  rw [Area.render, Area.render, Area.insert, Element.renderList_append]
  simp [Element.renderList]

/-- Claim C8: setting the same Preambule field twice replaces the first
value with the second — last write wins, both at the state level and in
the subsequent render. -/
theorem preambule_last_write_wins (s : Preambule) (t1 t2 : DocumentType)
    (p1 p2 : Parameter) (a1 a2 : String) :
    ((s.setType t1).setType t2 = s.setType t2 ∧
      (s.setTittle p1).setTittle p2 = s.setTittle p2 ∧
      (s.setAuthor a1).setAuthor a2 = s.setAuthor a2) ∧
    (((s.setType t1).setType t2).render = (s.setType t2).render ∧
      ((s.setTittle p1).setTittle p2).render = (s.setTittle p2).render ∧
      ((s.setAuthor a1).setAuthor a2).render = (s.setAuthor a2).render) :=
  ⟨⟨rfl, rfl, rfl⟩, ⟨rfl, rfl, rfl⟩⟩

/-- Claim C9: rendering is pure and deterministic for every node kind —
rendering the same unmodified tree twice yields identical strings.  In
this embedding every render is a pure function of the tree (the source
`render(&self)` takes a shared borrow and touches no external state),
so the tree cannot be modified by rendering. -/
theorem render_pure_deterministic (s : String) (m : Macros) (p : Parameter)
    (a : Area) (b : Boxed) (pre : Preambule) (d : Document) :
    (Element.text s).render = (Element.text s).render ∧
    m.render = m.render ∧ p.render = p.render ∧ a.render = a.render ∧
    b.render = b.render ∧ pre.render = pre.render ∧ d.render = d.render :=
  ⟨rfl, rfl, rfl, rfl, rfl, rfl, rfl⟩

/-- Claim C10: a Command with a non-empty parameter list whose
parameters all render to the empty string renders as `\` + name with no
braces — the brace decision is made on the concatenated rendered text,
not on the length of the parameter list. -/
theorem macros_all_params_empty_no_braces (m : String) (ps : List Parameter)
    (_hne : ps ≠ []) (hall : ∀ p ∈ ps, p.render = "") :
    (Macros.mk m ps).render = "\\" ++ m := by
  have h : Parameter.renderList ps = "" := Parameter.renderList_eq_empty ps hall
  simp [Macros.render, h]

/-- Witness for claim C10 at the concrete command `\x` with the single
literal parameter `""`. -/
theorem macros_all_params_empty_no_braces_witness :
    (Macros.mk "x" [Parameter.Literal ""]).render = "\\x" :=
  macros_all_params_empty_no_braces "x" [Parameter.Literal ""]
    (List.cons_ne_nil _ _)
    (by
      intro p hp
      rw [List.mem_singleton] at hp
      subst hp
      rfl)

end TryLatex
